import Mathlib

/-!
Shallow embedding of `lsst::daf::base::DateTime`
(src/include/lsst/daf/base/DateTime.h).

The repository ships only the header; the implementation file `DateTime.cc`
is not under `src/`.  The header's documentation comments are taken as the
authoritative contract (error conditions, the invalid sentinel, the year
range, the ISO8601 grammar and the Z rule, the enum values); the parts of
the behaviour the header does not pin down are modelled from the spec and
marked `Modelled from the spec:` in the doc comments below.

Machine `long long` values are modelled as unbounded `Int`; the int64 range
is carried as an explicit side condition where it matters.  C++ `double`
computations are modelled as exact rational arithmetic over `ℚ`.
-/

namespace DafBase

/-- Time scales, header lines 68-72 (`TAI = 5, UTC, TT`). -/
inductive Timescale
  | TAI
  | UTC
  | TT
deriving DecidableEq, Repr

/-- Date systems, header line 66 (`JD = 0, MJD, EPOCH`). -/
inductive DateSystem
  | JD
  | MJD
  | EPOCH
deriving DecidableEq, Repr

/-- Error kinds raised by the engine: `DomainError` (UTC before the leap-second
horizon, year out of range), `RuntimeError` (operation on an invalid
DateTime, header `_assertValid`), and the spec's format error for ISO8601
text that does not match the accepted grammar. -/
inductive DTError
  | domainError
  | runtimeError
  | formatError
deriving DecidableEq, Repr

/-- Nanoseconds per second. -/
def nsPerSec : Int := 1000000000

/-- Nanoseconds per day. -/
def nsPerDay : Int := 86400 * nsPerSec

/-- TT − TAI: the fixed 32.184 s offset, in nanoseconds (spec §4.2). -/
def ttMinusTaiNs : Int := 32184000000

/-- The invalid sentinel, header line 75:
`invalid_nsecs = std::numeric_limits<int64_t>::min()`. -/
def invalid_nsecs : Int := -(2 ^ 63)

/-- The DateTime value: a single `long long _nsecs`, TAI nanoseconds since
the Unix epoch (header line 227). -/
structure DateTime where
  _nsecs : Int
deriving DecidableEq, Repr

/-- `isValid`, header line 203: `_nsecs != invalid_nsecs`. -/
def DateTime.isValid (dt : DateTime) : Bool := dt._nsecs != invalid_nsecs

/-- Modelled from the spec (§3, §4.1; `DateTime.cc` is missing): one entry of
the leap-second table: the UTC instant (nanoseconds since the Unix epoch, in
the UTC scale) at which a cumulative TAI−UTC offset takes effect, and that
offset in whole seconds.  The pre-1972 linear drift terms are flagged by the
spec (§9) as an open question requiring the authoritative USNO text and are
not modelled; no claim depends on the pre-1972 offset values. -/
structure LeapEntry where
  whenUtc : Int
  offset : Int
deriving DecidableEq, Repr

/-- The TAI instant at which a table entry takes effect: its UTC boundary
plus its own offset (spec §4.1: "iterates entries converting each boundary
to TAI"). -/
def LeapEntry.whenTai (e : LeapEntry) : Int := e.whenUtc + e.offset * nsPerSec

/-- Modelled from the spec (§3, §6; the compiled-in default table lives in
the missing `DateTime.cc`): a representative subset of the USNO table,
ordered by UTC instant ascending.  The first entry is the 1961-01-01 horizon
(−283996800 s from the Unix epoch); the later entries are 1972-01-01 (10 s),
2015-07-01 (36 s) and 2017-01-01 (37 s). -/
def leapSecTable : List LeapEntry :=
  [⟨-283996800 * nsPerSec, 1⟩,
   ⟨63072000 * nsPerSec, 10⟩,
   ⟨1435708800 * nsPerSec, 36⟩,
   ⟨1483228800 * nsPerSec, 37⟩]

/-- Modelled from the spec (§4.1 `offsetForUtc`): the offset of the latest
entry whose effective UTC instant is not after the given UTC instant;
`none` when the instant precedes the first entry (the 1961 horizon). -/
def offsetForUtc : List LeapEntry → Int → Option Int
  | [], _ => none
  | e :: rest, u =>
      if u < e.whenUtc then none
      else
        match offsetForUtc rest u with
        | some d => some d
        | none => some e.offset

/-- Modelled from the spec (§4.1 `offsetForTai`): the inverse search, with
each boundary converted to TAI; `none` for TAI instants before the 1961
horizon's TAI equivalent. -/
def offsetForTai : List LeapEntry → Int → Option Int
  | [], _ => none
  | e :: rest, t =>
      if t < e.whenTai then none
      else
        match offsetForTai rest t with
        | some d => some d
        | none => some e.offset

/-- Modelled from the spec (§4.2): UTC nanoseconds → TAI nanoseconds, adding
the table offset; a domain error before the 1961 horizon. -/
def utcToTai (u : Int) : Except DTError Int :=
  match offsetForUtc leapSecTable u with
  | some d => .ok (u + d * nsPerSec)
  | none => .error .domainError

/-- Modelled from the spec (§4.2): TAI nanoseconds → UTC nanoseconds,
subtracting the table offset; a domain error before the horizon. -/
def taiToUtc (t : Int) : Except DTError Int :=
  match offsetForTai leapSecTable t with
  | some d => .ok (t - d * nsPerSec)
  | none => .error .domainError

/-- Modelled from the spec (§4.2, TAI is the pivot): internal TAI
nanoseconds expressed in the requested scale. -/
def scaleFromTai (t : Int) : Timescale → Except DTError Int
  | .TAI => .ok t
  | .TT => .ok (t + ttMinusTaiNs)
  | .UTC => taiToUtc t

/-- Modelled from the spec (§4.2): nanoseconds tagged with a scale,
converted to internal TAI nanoseconds. -/
def scaleToTai (n : Int) : Timescale → Except DTError Int
  | .TAI => .ok n
  | .TT => .ok (n - ttMinusTaiNs)
  | .UTC => utcToTai n

/-- `nsecs(scale)`, header lines 136-146: if the DateTime is invalid the
returned value is `invalid_nsecs` regardless of scale (header note, no
throw for invalid); otherwise the internal TAI value converted to the
requested scale, with a domain error for UTC before 1961. -/
def DateTime.nsecs (dt : DateTime) (scale : Timescale) : Except DTError Int :=
  if dt._nsecs = invalid_nsecs then .ok invalid_nsecs
  else scaleFromTai dt._nsecs scale

/-- `DateTime(long long nsecs, Timescale scale)`, header lines 82-91: if
`nsecs == invalid_nsecs` the DateTime is invalid regardless of scale;
otherwise the input is converted from its scale to internal TAI, with a
domain error for UTC before 1961. -/
def fromNsecs (n : Int) (scale : Timescale) : Except DTError DateTime :=
  if n = invalid_nsecs then .ok ⟨invalid_nsecs⟩
  else (scaleToTai n scale).map DateTime.mk

/-- Is a year a leap year of the proleptic Gregorian calendar (spec §1:
"'a single fixed Gregorian proleptic calendar")? -/
def isLeap (y : Int) : Bool := decide ((y % 4 = 0 ∧ y % 100 ≠ 0) ∨ y % 400 = 0)

/-- Length of a calendar year in days. -/
def daysInYear (y : Int) : Int := if (y % 4 = 0 ∧ y % 100 ≠ 0) ∨ y % 400 = 0 then 366 else 365

/-- Number of proleptic Gregorian leap years strictly before year `y`
(counted from year 1; floor division extends the count uniformly to
earlier years). -/
def leapsBefore (y : Int) : Int := (y - 1) / 4 - (y - 1) / 100 + (y - 1) / 400

/-- Days from the Unix epoch (1970-01-01) to January 1 of year `y`. -/
def daysToYear (y : Int) : Int := 365 * (y - 1970) + leapsBefore y - leapsBefore 1970

/-- Length of a calendar month in days (`0` outside months 1..12). -/
def monthDays (leap : Bool) (m : Int) : Int :=
  if m = 1 then 31
  else if m = 2 then (if leap then 29 else 28)
  else if m = 3 then 31
  else if m = 4 then 30
  else if m = 5 then 31
  else if m = 6 then 30
  else if m = 7 then 31
  else if m = 8 then 31
  else if m = 9 then 30
  else if m = 10 then 31
  else if m = 11 then 30
  else if m = 12 then 31
  else 0

/-- Days from January 1 to the first day of month `m` of the same year
(the whole year, 365 or 366, for `m` past December). -/
def daysToMonth (leap : Bool) (m : Int) : Int :=
  (if m = 1 then 0
   else if m = 2 then 31
   else if m = 3 then 59
   else if m = 4 then 90
   else if m = 5 then 120
   else if m = 6 then 151
   else if m = 7 then 181
   else if m = 8 then 212
   else if m = 9 then 243
   else if m = 10 then 273
   else if m = 11 then 304
   else if m = 12 then 334
   else 365) +
  (if 3 ≤ m ∧ leap = true then 1 else 0)

/-- Modelled from the spec (§1, §4.2: the missing `DateTime.cc` composes
calendar fields with `timegm`-style arithmetic on the proleptic Gregorian
calendar): days since the Unix epoch of a civil date. -/
def daysFromCivil (y m d : Int) : Int :=
  daysToYear y + daysToMonth (isLeap y) m + (d - 1)

/-- Scan forward one year at a time: starting at January 1 of year `y`
with `r` days remaining, find the year containing the day and the day
offset within it. -/
def yearScan : Nat → Int → Int → Int × Int
  | 0, y, r => (y, r)
  | fuel + 1, y, r =>
      if r < daysInYear y then (y, r) else yearScan fuel (y + 1) (r - daysInYear y)

/-- Scan forward one month at a time within a year. -/
def monthScan : Nat → Bool → Int → Int → Int × Int
  | 0, _, m, r => (m, r)
  | fuel + 1, leap, m, r =>
      if r < monthDays leap m then (m, r) else monthScan fuel leap (m + 1) (r - monthDays leap m)

/-- Modelled from the spec (§4.2 `gmtime` decomposition on the proleptic
Gregorian calendar, as performed by the missing `DateTime.cc` via
`gmtime_r`): civil date (year, month, day) of a count of days since the
Unix epoch; inverse of `daysFromCivil` on the supported range
(the scan starts at 1601-01-01 and covers 1200 years). -/
def civilFromDays (z : Int) : Int × Int × Int :=
  let (y, r) := yearScan 1200 1601 (z - daysToYear 1601)
  let (m, r2) := monthScan 12 (isLeap y) 1 r
  (y, m, r2 + 1)

/-- `DateTime(int year, int month, int day, int hr, int min, int sec,
Timescale scale)`, header lines 103-116: a domain error if `year` is
outside [1902, 2261]; otherwise the fields are composed arithmetically
(modelled from the spec: `timegm`-style composition in the missing
`DateTime.cc`) and the result converted from the given scale to internal
TAI, with a domain error for UTC before 1961. -/
def fromCalendar (year month day hr mins sec : Int) (scale : Timescale) :
    Except DTError DateTime :=
  if year < 1902 ∨ 2261 < year then .error .domainError
  else
    let n := (daysFromCivil year month day * 86400 + hr * 3600 + mins * 60 + sec) * nsPerSec
    (scaleToTai n scale).map DateTime.mk

/-- Calendar decomposition of a nanosecond count in a given scale
(modelled from the spec §4.2: `gmtime` semantics, fractional seconds
truncated, not rounded): year, month, day, hour, minute, second,
fractional nanoseconds. -/
def decompose (n : Int) : Int × Int × Int × Int × Int × Int × Int :=
  let days := n / nsPerDay
  let rem := n % nsPerDay
  let (y, m, d) := civilFromDays days
  let secOfDay := rem / nsPerSec
  let frac := rem % nsPerSec
  (y, m, d, secOfDay / 3600, secOfDay % 3600 / 60, secOfDay % 60, frac)

/-- Fields of a `struct tm` as produced by `gmtime`, header lines 171-178. -/
structure TmFields where
  year : Int
  month : Int
  day : Int
  hour : Int
  minute : Int
  second : Int
deriving DecidableEq, Repr

/-- `gmtime(scale)`, header lines 171-178: a runtime error if the DateTime
is invalid (`_assertValid`, header lines 229-234), a domain error for UTC
before 1961; otherwise the calendar fields with truncated fractional
seconds. -/
def DateTime.gmtime (dt : DateTime) (scale : Timescale) : Except DTError TmFields :=
  if dt._nsecs = invalid_nsecs then .error .runtimeError
  else
    (scaleFromTai dt._nsecs scale).map fun t =>
      let (y, m, d, h, mi, s, _) := decompose t
      ⟨y, m, d, h, mi, s⟩

/-- `timespec(scale)`, header lines 180-188: seconds and nanoseconds; same
validity and domain checks; C++ `/` and `%` on `long long` truncate toward
zero. -/
def DateTime.timespec (dt : DateTime) (scale : Timescale) : Except DTError (Int × Int) :=
  if dt._nsecs = invalid_nsecs then .error .runtimeError
  else
    (scaleFromTai dt._nsecs scale).map fun t =>
      (Int.tdiv t nsPerSec, Int.tmod t nsPerSec)

/-- `timeval(scale)`, header lines 190-198: seconds and microseconds; same
validity and domain checks. -/
def DateTime.timeval (dt : DateTime) (scale : Timescale) : Except DTError (Int × Int) :=
  if dt._nsecs = invalid_nsecs then .error .runtimeError
  else
    (scaleFromTai dt._nsecs scale).map fun t =>
      (Int.tdiv t nsPerSec, Int.tdiv (Int.tmod t nsPerSec) 1000)

/-- `get(system, scale)`, header lines 148-157, with the double modelled as
an exact rational (spec §4.2): JD is the pivot,
`JD = nanoseconds_in_scale / 86400e9 + 2440587.5`,
`MJD = JD − 2400000.5`, `EPOCH = 2000 + (JD − 2451545)/365.25`;
a runtime error if invalid, a domain error for UTC before 1961. -/
def DateTime.get (dt : DateTime) (system : DateSystem) (scale : Timescale) :
    Except DTError ℚ :=
  if dt._nsecs = invalid_nsecs then .error .runtimeError
  else
    (scaleFromTai dt._nsecs scale).map fun t =>
      let jd : ℚ := (t : ℚ) / (86400 * 10 ^ 9) + 2440587.5
      match system with
      | .JD => jd
      | .MJD => jd - 2400000.5
      | .EPOCH => 2000 + (jd - 2451545) / 365.25

/-- Truncation of a rational toward zero, the C++ `static_cast<long long>`
of a `double`. -/
def truncQ (q : ℚ) : Int := Int.tdiv q.num q.den

/-- Julian Date of an input double in a given system (spec §4.2: JD is the
pivot; MJD and Julian epoch are taken to JD first). -/
def jdOfSystem (date : ℚ) : DateSystem → ℚ
  | .JD => date
  | .MJD => date + 2400000.5
  | .EPOCH => 2451545 + (date - 2000) * 365.25

/-- Nanoseconds-in-scale resolved from an input double: days past the Unix
epoch JD scaled to nanoseconds and truncated toward zero. -/
def nsOfDouble (date : ℚ) (system : DateSystem) : Int :=
  truncQ ((jdOfSystem date system - 2440587.5) * (86400 * 10 ^ 9))

/-- `DateTime(double date, DateSystem system, Timescale scale)`, header
lines 93-101, with the double modelled as an exact rational: the input is
taken to JD, then to nanoseconds in the given scale (truncated toward
zero), then converted to internal TAI; a domain error for UTC before
1961. -/
def fromDouble (date : ℚ) (system : DateSystem) (scale : Timescale) :
    Except DTError DateTime :=
  (scaleToTai (nsOfDouble date system) scale).map DateTime.mk

/-- `operator==`, header line 205 (spec §3, §9: equality is by the internal
nanosecond value only). -/
def DateTime.eq (a b : DateTime) : Bool := a._nsecs == b._nsecs

/-- `hash_value`, header lines 207-208, modelled from the spec (§3: hashing
is by the internal nanosecond value only): the `size_t` two's-complement
bit pattern of `_nsecs`. -/
def DateTime.hash_value (dt : DateTime) : Nat := (dt._nsecs % 2 ^ 64).toNat

/-- Big-endian fixed-width decimal digit list of a natural number:
`padDigits k n` has length `k` and value `n` when `n < 10 ^ k`. -/
def padDigits : Nat → Nat → List Nat
  | 0, _ => []
  | k + 1, n => n / 10 ^ k :: padDigits k (n % 10 ^ k)

/-- A decimal digit as a character. -/
def digitChar (d : Nat) : Char := Char.ofNat (48 + d)

/-- Fixed-width decimal numeral as characters. -/
def padChars (k n : Nat) : List Char := (padDigits k n).map digitChar

/-- The emitted ISO8601 character sequence
`yyyy-mm-ddThh:mm:ss.fffffffff` with an optional trailing `Z`
(header lines 159-169). -/
def isoChars (y m d hh mi ss f : Int) (withZ : Bool) : List Char :=
  padChars 4 y.toNat ++ '-' :: padChars 2 m.toNat ++ '-' :: padChars 2 d.toNat ++
    'T' :: padChars 2 hh.toNat ++ ':' :: padChars 2 mi.toNat ++ ':' :: padChars 2 ss.toNat ++
    '.' :: padChars 9 f.toNat ++ (if withZ then ['Z'] else [])

/-- `toString(scale)`, header lines 159-169: a runtime error if invalid, a
domain error for UTC before 1961; otherwise
`yyyy-mm-ddThh:mm:ss.sssssssssZ` where the fractional seconds are always 9
digits and the final `Z` is present exactly when the scale is UTC. -/
def DateTime.toString (dt : DateTime) (scale : Timescale) : Except DTError String :=
  if dt._nsecs = invalid_nsecs then .error .runtimeError
  else
    (scaleFromTai dt._nsecs scale).map fun t =>
      let (y, m, d, h, mi, s, frac) := decompose t
      ⟨isoChars y m d h mi s frac (decide (scale = .UTC))⟩

/-- The value of a decimal digit character, `none` for a non-digit. -/
def digitVal? (c : Char) : Option Nat :=
  if 48 ≤ c.toNat ∧ c.toNat ≤ 57 then some (c.toNat - 48) else none

/-- Read exactly `k` decimal digits, accumulating left to right. -/
def readFixedAux : Nat → Nat → List Char → Option (Nat × List Char)
  | 0, acc, cs => some (acc, cs)
  | k + 1, acc, c :: cs =>
      match digitVal? c with
      | some d => readFixedAux k (acc * 10 + d) cs
      | none => none
  | _ + 1, _, [] => none

/-- Read a fixed-width decimal numeral. -/
def readFixed (k : Nat) (cs : List Char) : Option (Nat × List Char) :=
  readFixedAux k 0 cs

/-- Drop one optional separator character (header lines 118-127: the `-`
and `:` separators are optional). -/
def skipSep (sep : Char) (cs : List Char) : List Char :=
  match cs with
  | c :: rest => if c = sep then rest else cs
  | [] => []

/-- Are all characters decimal digits? -/
def allDigits (cs : List Char) : Bool := cs.all fun c => (digitVal? c).isSome

/-- Value of a big-endian digit-character list. -/
def digitsVal (cs : List Char) : Nat :=
  cs.foldl (fun a c => a * 10 + ((digitVal? c).getD 0)) 0

/-- Fractional-second digits as nanoseconds: the digits are read as a
decimal fraction of a second at nanosecond resolution (modelled from the
spec §4.2; the emitted form always has exactly 9 digits). -/
def fracNs (cs : List Char) : Nat :=
  digitsVal (cs.take 9) * 10 ^ (9 - min 9 cs.length)

/-- Modelled from the spec (§4.2 accepted grammar; the regular expression
lives in the missing `DateTime.cc`): parse the body of an ISO8601 string
(the `Z`, if any, already stripped) into
(year, month, day, hour, minute, second, fractional nanoseconds);
separators individually optional, fraction optional, the decimal separator
`.` or `,`. -/
def parseFields (cs : List Char) : Option (Nat × Nat × Nat × Nat × Nat × Nat × Nat) :=
  match readFixed 4 cs with
  | none => none
  | some (y, cs) =>
    match readFixed 2 (skipSep '-' cs) with
    | none => none
    | some (mo, cs) =>
      match readFixed 2 (skipSep '-' cs) with
      | none => none
      | some (d, cs) =>
        match cs with
        | [] => none
        | c :: cs =>
          if c = 'T' then
            match readFixed 2 cs with
            | none => none
            | some (h, cs) =>
              match readFixed 2 (skipSep ':' cs) with
              | none => none
              | some (mi, cs) =>
                match readFixed 2 (skipSep ':' cs) with
                | none => none
                | some (s, cs) =>
                  match cs with
                  | [] => some (y, mo, d, h, mi, s, 0)
                  | c :: rest =>
                      if (c = '.' ∨ c = ',') ∧ allDigits rest then
                        some (y, mo, d, h, mi, s, fracNs rest)
                      else none
          else none

/-- `DateTime(std::string const& iso8601, Timescale scale)`, header lines
118-134: the final `Z` is required for UTC and prohibited for TAI or TT
(a format error on mismatch, spec §7); the accepted grammar is
`yyyy-mm-ddThh:mm:ss.nnnnnnnnn` with optional separators and fraction; a
domain error if the year is outside [1902, 2261] or if the scale is UTC
and the date is before 1961. -/
def parseIso (iso8601 : String) (scale : Timescale) : Except DTError DateTime :=
  let cs := iso8601.data
  let body? : Option (List Char) :=
    if scale = .UTC then
      if cs.getLast? = some 'Z' then some cs.dropLast else none
    else if cs.getLast? = some 'Z' then none
    else some cs
  match body? with
  | none => .error .formatError
  | some body =>
    match parseFields body with
    | none => .error .formatError
    | some (y, mo, d, h, mi, s, frac) =>
      if y < 1902 ∨ 2261 < y then .error .domainError
      else
        let n := (daysFromCivil y mo d * 86400 + (h : Int) * 3600 + mi * 60 + s) * nsPerSec + frac
        (scaleToTai n scale).map DateTime.mk

/-- A TAI instant lies inside a leap-second transition window: between a
table entry's UTC boundary shifted by the previous offset and the same
boundary shifted by the new offset (spec §4.1: at such instants UTC
repeats or skips a second). -/
def inLeapWindowFrom : List LeapEntry → Int → Bool
  | e1 :: e2 :: rest, t =>
      (decide (e2.whenUtc + e1.offset * nsPerSec ≤ t) && decide (t < e2.whenTai)) ||
        inLeapWindowFrom (e2 :: rest) t
  | _, _ => false

/-- A TAI instant is inside some leap-second transition of the table. -/
def inLeapWindow (t : Int) : Bool := inLeapWindowFrom leapSecTable t

instance exceptDecEq {ε α : Type} [DecidableEq ε] [DecidableEq α] :
    DecidableEq (Except ε α)
  | .ok x, .ok y => if h : x = y then .isTrue (by rw [h]) else .isFalse (by simp [h])
  | .ok _, .error _ => .isFalse (by simp)
  | .error _, .ok _ => .isFalse (by simp)
  | .error e, .error f => if h : e = f then .isTrue (by rw [h]) else .isFalse (by simp [h])

lemma isValid_true_iff (dt : DateTime) : dt.isValid = true ↔ dt._nsecs ≠ invalid_nsecs := by
  simp [DateTime.isValid]

lemma isValid_false_iff (dt : DateTime) : dt.isValid = false ↔ dt._nsecs = invalid_nsecs := by
  simp [DateTime.isValid]

lemma offsetForUtc_eq (u : Int) :
    offsetForUtc leapSecTable u =
      if u < -283996800000000000 then none
      else if u < 63072000000000000 then some 1
      else if u < 1435708800000000000 then some 10
      else if u < 1483228800000000000 then some 36
      else some 37 := by
  simp only [leapSecTable, offsetForUtc, nsPerSec]
  norm_num
  split_ifs <;> simp_all

lemma offsetForTai_eq (t : Int) :
    offsetForTai leapSecTable t =
      if t < -283996799000000000 then none
      else if t < 63072010000000000 then some 1
      else if t < 1435708836000000000 then some 10
      else if t < 1483228837000000000 then some 36
      else some 37 := by
  simp only [leapSecTable, offsetForTai, LeapEntry.whenTai, nsPerSec]
  norm_num
  split_ifs <;> simp_all

/-- C3: for every valid instant, the TT representation is exactly
32.184 seconds (32184000000 nanoseconds) ahead of the TAI representation:
`nsecs(TT) = nsecs(TAI) + 32184000000`, a constant-offset computation that
always succeeds (no table lookup, no exception). -/
theorem tt_is_tai_plus_constant (dt : DateTime) (h : dt.isValid = true) :
    dt.nsecs .TT = .ok (dt._nsecs + 32184000000) ∧
    dt.nsecs .TAI = .ok dt._nsecs := by
  rw [isValid_true_iff] at h
  constructor <;> simp [DateTime.nsecs, scaleFromTai, h, ttMinusTaiNs]

/-- Witness for C3 at the Unix epoch instant. -/
theorem tt_is_tai_plus_constant_witness :
    DateTime.nsecs ⟨0⟩ .TT = .ok (0 + 32184000000) ∧
    DateTime.nsecs ⟨0⟩ .TAI = .ok 0 :=
  tt_is_tai_plus_constant ⟨0⟩ (by decide)

/-- C5 counterexample: `nsecs` invoked on a default-constructed (invalid)
DateTime does not fail with a state error; per the header's documented
contract it returns the sentinel `invalid_nsecs` (header lines 136-146). -/
theorem nsecs_invalid_returns_sentinel :
    DateTime.nsecs ⟨invalid_nsecs⟩ .TAI = .ok invalid_nsecs ∧
    DateTime.nsecs ⟨invalid_nsecs⟩ .TAI ≠ .error .runtimeError := by
  constructor <;> simp [DateTime.nsecs]

/-- C5 (amended): every value-producing accessor except `nsecs` — `get`,
`toString`, `gmtime`, `timespec`, `timeval` — fails with a state error on
an invalid instant; `nsecs` instead returns the sentinel `invalid_nsecs`
rather than raising. -/
theorem invalid_accessors_state_error (dt : DateTime) (h : dt.isValid = false)
    (system : DateSystem) (scale : Timescale) :
    dt.get system scale = .error .runtimeError ∧
    dt.toString scale = .error .runtimeError ∧
    dt.gmtime scale = .error .runtimeError ∧
    dt.timespec scale = .error .runtimeError ∧
    dt.timeval scale = .error .runtimeError ∧
    dt.nsecs scale = .ok invalid_nsecs := by
  rw [isValid_false_iff] at h
  refine ⟨?_, ?_, ?_, ?_, ?_, ?_⟩ <;>
    simp [DateTime.get, DateTime.toString, DateTime.gmtime, DateTime.timespec,
      DateTime.timeval, DateTime.nsecs, h]

/-- Witness for C5 (amended) at the default-constructed DateTime. -/
theorem invalid_accessors_state_error_witness :
    DateTime.get ⟨invalid_nsecs⟩ .JD .TAI = .error .runtimeError ∧
    DateTime.toString ⟨invalid_nsecs⟩ .TAI = .error .runtimeError ∧
    DateTime.gmtime ⟨invalid_nsecs⟩ .TAI = .error .runtimeError ∧
    DateTime.timespec ⟨invalid_nsecs⟩ .TAI = .error .runtimeError ∧
    DateTime.timeval ⟨invalid_nsecs⟩ .TAI = .error .runtimeError ∧
    DateTime.nsecs ⟨invalid_nsecs⟩ .TAI = .ok invalid_nsecs :=
  invalid_accessors_state_error ⟨invalid_nsecs⟩ (by decide) .JD .TAI

/-- C8: the calendar-field constructor accepts only years in [1902, 2261]:
any year outside the range fails with a domain error, while year 1902
succeeds. -/
theorem calendar_year_range_check (y mo d hr mi s : Int) (scale : Timescale)
    (hy : y < 1902 ∨ 2261 < y) :
    fromCalendar y mo d hr mi s scale = .error .domainError ∧
    ∃ dt : DateTime, fromCalendar 1902 1 1 0 0 0 .TAI = .ok dt := by
  refine ⟨by simp [fromCalendar, hy], ⟨_, rfl⟩⟩

/-- Witness for C8 at year 1900. -/
theorem calendar_year_range_check_witness :
    fromCalendar 1900 1 1 0 0 0 .TAI = .error .domainError ∧
    ∃ dt : DateTime, fromCalendar 1902 1 1 0 0 0 .TAI = .ok dt :=
  calendar_year_range_check 1900 1 1 0 0 0 .TAI (by omega)

/-- C9: equality holds iff the canonical internal TAI-nanosecond counts are
equal; the hash is a function of the internal value only, so equal values
hash equally; and values constructed through different scales that denote
the same instant are equal with equal hashes. -/
theorem eq_and_hash_by_internal_nsecs (a b : DateTime) :
    (DateTime.eq a b = true ↔ a._nsecs = b._nsecs) ∧
    (DateTime.eq a b = true → a.hash_value = b.hash_value) ∧
    (∃ x y : DateTime, fromNsecs 100 .TAI = .ok x ∧
      fromNsecs (100 + ttMinusTaiNs) .TT = .ok y ∧
      DateTime.eq x y = true ∧ x.hash_value = y.hash_value) := by
  refine ⟨by simp [DateTime.eq], fun h => ?_, ?_⟩
  · have : a._nsecs = b._nsecs := by simpa [DateTime.eq] using h
    simp [DateTime.hash_value, this]
  · exact ⟨⟨100⟩, ⟨100⟩, by norm_num [fromNsecs, scaleToTai, invalid_nsecs, Except.map],
      by norm_num [fromNsecs, scaleToTai, ttMinusTaiNs, invalid_nsecs, Except.map], by decide, rfl⟩

/-- Witness for C9 at two equal concrete values. -/
theorem eq_and_hash_by_internal_nsecs_witness :
    DateTime.eq ⟨3⟩ ⟨3⟩ = true ∧ DateTime.hash_value ⟨3⟩ = DateTime.hash_value ⟨3⟩ :=
  ⟨(eq_and_hash_by_internal_nsecs ⟨3⟩ ⟨3⟩).1.mpr rfl,
    (eq_and_hash_by_internal_nsecs ⟨3⟩ ⟨3⟩).2.1 (by decide)⟩

/-- C10: the invalid sentinel passes through the nanoseconds interface
unchecked: constructing from `invalid_nsecs` yields the invalid DateTime
for every scale (UTC included, with no domain error even though the
sentinel precedes the 1961 horizon), and `nsecs` on an invalid DateTime
returns `invalid_nsecs` for every scale rather than raising. -/
theorem invalid_sentinel_passthrough (scale scale' : Timescale) (dt : DateTime)
    (h : dt.isValid = false) :
    fromNsecs invalid_nsecs scale = .ok ⟨invalid_nsecs⟩ ∧
    invalid_nsecs < -283996800 * nsPerSec ∧
    dt.nsecs scale' = .ok invalid_nsecs := by
  rw [isValid_false_iff] at h
  refine ⟨by simp [fromNsecs], by norm_num [invalid_nsecs, nsPerSec], ?_⟩
  simp [DateTime.nsecs, h]

/-- Witness for C10 with scale UTC on both sides. -/
theorem invalid_sentinel_passthrough_witness :
    fromNsecs invalid_nsecs .UTC = .ok ⟨invalid_nsecs⟩ ∧
    invalid_nsecs < -283996800 * nsPerSec ∧
    DateTime.nsecs ⟨invalid_nsecs⟩ .UTC = .ok invalid_nsecs :=
  invalid_sentinel_passthrough .UTC .UTC ⟨invalid_nsecs⟩ (by decide)

lemma truncQ_intCast (n : Int) : truncQ ((n : ℚ)) = n := by
  simp [truncQ]

lemma nsOfDouble_mjd_35000 : nsOfDouble 35000 .MJD = -482716800000000000 := by
  have h : (jdOfSystem 35000 .MJD - 2440587.5) * (86400 * 10 ^ 9) =
      ((-482716800000000000 : Int) : ℚ) := by
    norm_num [jdOfSystem]
  rw [nsOfDouble, h, truncQ_intCast]

lemma invalid_nsecs_eq : invalid_nsecs = -9223372036854775808 := by
  norm_num [invalid_nsecs]

lemma taiToUtc_ok_lower (n u : Int) (h : taiToUtc n = .ok u) :
    -283996800000000000 ≤ u := by
  simp only [taiToUtc, nsPerSec] at h
  rw [offsetForTai_eq] at h
  split_ifs at h <;> simp only [Except.ok.injEq, reduceCtorEq] at h <;> omega

lemma utcToTai_of_taiToUtc (n u : Int) (h : taiToUtc n = .ok u)
    (hw : inLeapWindow n = false) : utcToTai u = .ok n := by
  simp [inLeapWindow, inLeapWindowFrom, leapSecTable, LeapEntry.whenTai, nsPerSec] at hw
  simp only [taiToUtc, nsPerSec] at h
  rw [offsetForTai_eq] at h
  simp only [utcToTai, nsPerSec]
  rw [offsetForUtc_eq]
  split_ifs at h <;>
    simp only [Except.ok.injEq, reduceCtorEq] at h <;>
    subst h <;>
    split_ifs <;>
    try simp only [Except.ok.injEq, reduceCtorEq]
  all_goals omega

/-- C1 counterexample: the UTC nanoseconds round trip fails for a TAI
instant inside the 2016-12-31 leap-second insertion: nsecs(UTC) of TAI
1483228836000000000 is 1483228800000000000, but constructing from that
value with scale UTC lands on TAI 1483228837000000000, one second later. -/
theorem nsecs_utc_roundtrip_counterexample :
    DateTime.nsecs ⟨1483228836000000000⟩ .UTC = .ok 1483228800000000000 ∧
    fromNsecs 1483228800000000000 .UTC = .ok ⟨1483228837000000000⟩ ∧
    (⟨1483228837000000000⟩ : DateTime) ≠ ⟨1483228836000000000⟩ := by
  refine ⟨by decide, by decide, by decide⟩

/-- C1 (amended): for every valid int64 instant, reconstructing from
`nsecs(s)` with scale `s` reproduces the instant exactly for s = TAI and
s = TT; for s = UTC the same holds whenever the conversion succeeds (the
instant is at or after the UTC horizon) and the instant does not lie
inside a leap-second transition window.  In particular reconstruction
from the internal TAI-nanosecond integer with scale TAI is lossless and
idempotent. -/
theorem nsecs_scale_roundtrip (n u : Int) (hlo : -(2 ^ 63) < n) (hhi : n < 2 ^ 63) :
    (DateTime.nsecs ⟨n⟩ .TAI).bind (fun v => fromNsecs v .TAI) = .ok ⟨n⟩ ∧
    (DateTime.nsecs ⟨n⟩ .TT).bind (fun v => fromNsecs v .TT) = .ok ⟨n⟩ ∧
    (DateTime.nsecs ⟨n⟩ .UTC = .ok u → inLeapWindow n = false →
      fromNsecs u .UTC = .ok ⟨n⟩) := by
  have hn : n ≠ invalid_nsecs := by rw [invalid_nsecs_eq]; omega
  have hn2 : n + ttMinusTaiNs ≠ invalid_nsecs := by
    rw [invalid_nsecs_eq, ttMinusTaiNs]; omega
  refine ⟨?_, ?_, ?_⟩
  · simp [DateTime.nsecs, fromNsecs, scaleFromTai, scaleToTai, hn, Except.bind, Except.map]
  · simp [DateTime.nsecs, fromNsecs, scaleFromTai, scaleToTai, hn, hn2,
      Except.bind, Except.map]
  · intro h hw
    have htu : taiToUtc n = .ok u := by
      simpa [DateTime.nsecs, scaleFromTai, hn] using h
    have hu : u ≠ invalid_nsecs := by
      have := taiToUtc_ok_lower n u htu
      rw [invalid_nsecs_eq]; omega
    have hro := utcToTai_of_taiToUtc n u htu hw
    simp [fromNsecs, hu, scaleToTai, hro, Except.map]

/-- Witness for C1 at TAI instant 10^18 ns (2001-09-09, UTC offset 10 s in
the modelled table). -/
theorem nsecs_scale_roundtrip_witness :
    (DateTime.nsecs ⟨1000000000000000000⟩ .TAI).bind (fun v => fromNsecs v .TAI) =
      .ok ⟨1000000000000000000⟩ ∧
    (DateTime.nsecs ⟨1000000000000000000⟩ .TT).bind (fun v => fromNsecs v .TT) =
      .ok ⟨1000000000000000000⟩ ∧
    fromNsecs 999999990000000000 .UTC = .ok ⟨1000000000000000000⟩ := by
  have h := nsecs_scale_roundtrip 1000000000000000000 999999990000000000
    (by norm_num) (by norm_num)
  exact ⟨h.1, h.2.1, h.2.2 (by decide) (by decide)⟩

/-- C2: every conversion request with scale UTC whose resolved instant
precedes 1961-01-01T00:00:00 UTC fails with a domain error, in both
directions: the queries `nsecs`, `get`, `toString`, `gmtime`, `timespec`,
`timeval` on a valid pre-horizon instant, and construction from
nanoseconds (the sentinel excluded, which the header makes invalid instead)
or from a double whose resolved nanoseconds precede the horizon. -/
theorem utc_pre_horizon_domain_error (dt : DateTime) (u : Int) (v : ℚ)
    (system system2 : DateSystem)
    (hv : dt.isValid = true) (hq : dt._nsecs < -283996799000000000)
    (hu : u ≠ invalid_nsecs) (huh : u < -283996800000000000)
    (hd : nsOfDouble v system2 < -283996800000000000) :
    dt.nsecs .UTC = .error .domainError ∧
    dt.get system .UTC = .error .domainError ∧
    dt.toString .UTC = .error .domainError ∧
    dt.gmtime .UTC = .error .domainError ∧
    dt.timespec .UTC = .error .domainError ∧
    dt.timeval .UTC = .error .domainError ∧
    fromNsecs u .UTC = .error .domainError ∧
    fromDouble v system2 .UTC = .error .domainError := by
  rw [isValid_true_iff] at hv
  have htu : taiToUtc dt._nsecs = .error .domainError := by
    rw [taiToUtc, offsetForTai_eq]
    simp [hq]
  have hut : utcToTai u = .error .domainError := by
    rw [utcToTai, offsetForUtc_eq]
    simp [huh]
  have hud : utcToTai (nsOfDouble v system2) = .error .domainError := by
    rw [utcToTai, offsetForUtc_eq]
    simp [hd]
  refine ⟨?_, ?_, ?_, ?_, ?_, ?_, ?_, ?_⟩ <;>
    simp [DateTime.nsecs, DateTime.get, DateTime.toString, DateTime.gmtime,
      DateTime.timespec, DateTime.timeval, fromNsecs, fromDouble, scaleFromTai,
      scaleToTai, Except.map, hv, hu, htu, hut, hud]

/-- Witness for C2 at a 1960 instant (TAI −3·10^17 ns, UTC −3·10^17 ns)
and MJD 35000 (a 1954 date). -/
theorem utc_pre_horizon_domain_error_witness :
    DateTime.nsecs ⟨-300000000000000000⟩ .UTC = .error .domainError ∧
    DateTime.get ⟨-300000000000000000⟩ .JD .UTC = .error .domainError ∧
    DateTime.toString ⟨-300000000000000000⟩ .UTC = .error .domainError ∧
    DateTime.gmtime ⟨-300000000000000000⟩ .UTC = .error .domainError ∧
    DateTime.timespec ⟨-300000000000000000⟩ .UTC = .error .domainError ∧
    DateTime.timeval ⟨-300000000000000000⟩ .UTC = .error .domainError ∧
    fromNsecs (-300000000000000000) .UTC = .error .domainError ∧
    fromDouble 35000 .MJD .UTC = .error .domainError :=
  utc_pre_horizon_domain_error ⟨-300000000000000000⟩ (-300000000000000000) 35000
    .JD .MJD (by decide) (by decide) (by decide) (by decide)
    (by rw [nsOfDouble_mjd_35000]; decide)

/-- C7: parsing an ISO8601 string requires the trailing `Z` exactly when
the requested scale is UTC and forbids it for TAI and TT; any mismatch
between the presence of `Z` and the requested scale fails with a format
error. -/
theorem iso_z_scale_mismatch (str : String) (scale : Timescale) :
    (scale = .UTC → str.data.getLast? ≠ some 'Z' →
      parseIso str scale = .error .formatError) ∧
    (scale ≠ .UTC → str.data.getLast? = some 'Z' →
      parseIso str scale = .error .formatError) := by
  constructor
  · intro hs hz
    simp [parseIso, hs, hz]
  · intro hs hz
    simp [parseIso, hs, hz]

/-- Witness for C7: a Z-less string with scale UTC and a Z-terminated
string with scale TAI both fail with a format error. -/
theorem iso_z_scale_mismatch_witness :
    parseIso "2000-01-01T00:00:00" .UTC = .error .formatError ∧
    parseIso "2000-01-01T00:00:00Z" .TAI = .error .formatError :=
  ⟨(iso_z_scale_mismatch "2000-01-01T00:00:00" .UTC).1 rfl (by decide),
    (iso_z_scale_mismatch "2000-01-01T00:00:00Z" .TAI).2 (by decide) (by decide)⟩

/-- C4: for every valid instant and scale, the double system conversions
satisfy `get(JD) = nanoseconds-in-scale / 86400e9 + 2440587.5`,
`get(MJD) = get(JD) − 2400000.5`,
`get(EPOCH) = 2000 + (get(JD) − 2451545)/365.25`; and concretely,
`DateTime(0, TAI).get(JD, TAI) = 2440587.5` and
`DateTime(2000, 1, 1, 0, 0, 0, TAI).get(MJD, TAI) = 51544`. -/
theorem get_double_system_formulas (dt : DateTime) (t : Int) (scale : Timescale)
    (hv : dt.isValid = true) (ht : scaleFromTai dt._nsecs scale = .ok t) :
    dt.get .JD scale = .ok ((t : ℚ) / (86400 * 10 ^ 9) + 2440587.5) ∧
    dt.get .MJD scale = .ok ((t : ℚ) / (86400 * 10 ^ 9) + 2440587.5 - 2400000.5) ∧
    dt.get .EPOCH scale =
      .ok (2000 + ((t : ℚ) / (86400 * 10 ^ 9) + 2440587.5 - 2451545) / 365.25) ∧
    DateTime.get ⟨0⟩ .JD .TAI = .ok 2440587.5 ∧
    (fromCalendar 2000 1 1 0 0 0 .TAI).bind (fun x => x.get .MJD .TAI) = .ok 51544 := by
  rw [isValid_true_iff] at hv
  have hcal : fromCalendar 2000 1 1 0 0 0 .TAI = .ok ⟨946684800000000000⟩ := by decide
  refine ⟨?_, ?_, ?_, ?_, ?_⟩
  · simp [DateTime.get, hv, ht, Except.map]
  · simp [DateTime.get, hv, ht, Except.map]
  · simp [DateTime.get, hv, ht, Except.map]
  · norm_num [DateTime.get, scaleFromTai, invalid_nsecs, Except.map]
  · rw [hcal]
    simp only [Except.bind]
    norm_num [DateTime.get, scaleFromTai, invalid_nsecs, Except.map]

/-- Witness for C4 at the Unix epoch in TAI. -/
theorem get_double_system_formulas_witness :
    DateTime.get ⟨0⟩ .JD .TAI = .ok ((0 : ℚ) / (86400 * 10 ^ 9) + 2440587.5) :=
  (get_double_system_formulas ⟨0⟩ 0 .TAI (by decide) (by decide)).1


lemma digitVal?_digitChar (d : Nat) (h : d < 10) : digitVal? (digitChar d) = some d := by
  interval_cases d <;> decide

lemma padChars_cons (k n : Nat) :
    padChars (k + 1) n = digitChar (n / 10 ^ k) :: padChars k (n % 10 ^ k) := rfl

lemma padChars_length (k n : Nat) : (padChars k n).length = k := by
  induction k generalizing n with
  | zero => rfl
  | succ k ih => simp [padChars_cons, ih]

lemma readFixedAux_pad (k : Nat) : ∀ (acc n : Nat) (rest : List Char), n < 10 ^ k →
    readFixedAux k acc (padChars k n ++ rest) = some (acc * 10 ^ k + n, rest) := by
  induction k with
  | zero =>
    intro acc n rest h
    have hn : n = 0 := by omega
    subst hn
    simp [padChars, padDigits, readFixedAux]
  | succ k ih =>
    intro acc n rest h
    have hd : n / 10 ^ k < 10 := Nat.div_lt_of_lt_mul (by rw [← pow_succ]; exact h)
    rw [padChars_cons]
    simp only [List.cons_append, readFixedAux, digitVal?_digitChar _ hd, List.append_eq]
    rw [ih _ _ _ (Nat.mod_lt _ (by positivity))]
    have hmod := Nat.div_add_mod n (10 ^ k)
    congr 2
    calc (acc * 10 + n / 10 ^ k) * 10 ^ k + n % 10 ^ k
        = acc * (10 ^ k * 10) + (10 ^ k * (n / 10 ^ k) + n % 10 ^ k) := by ring
      _ = acc * 10 ^ (k + 1) + n := by rw [hmod, pow_succ]

lemma readFixed_pad (k n : Nat) (rest : List Char) (h : n < 10 ^ k) :
    readFixed k (padChars k n ++ rest) = some (n, rest) := by
  rw [readFixed, readFixedAux_pad k 0 n rest h, Nat.zero_mul, Nat.zero_add]

lemma digitsVal_aux (k : Nat) : ∀ (acc n : Nat), n < 10 ^ k →
    List.foldl (fun a c => a * 10 + ((digitVal? c).getD 0)) acc (padChars k n) =
      acc * 10 ^ k + n := by
  induction k with
  | zero =>
    intro acc n h
    have hn : n = 0 := by omega
    subst hn
    simp [padChars, padDigits]
  | succ k ih =>
    intro acc n h
    have hd : n / 10 ^ k < 10 := Nat.div_lt_of_lt_mul (by rw [← pow_succ]; exact h)
    rw [padChars_cons]
    simp only [List.foldl_cons, digitVal?_digitChar _ hd, Option.getD_some]
    rw [ih _ _ (Nat.mod_lt _ (by positivity))]
    have hmod := Nat.div_add_mod n (10 ^ k)
    calc (acc * 10 + n / 10 ^ k) * 10 ^ k + n % 10 ^ k
        = acc * (10 ^ k * 10) + (10 ^ k * (n / 10 ^ k) + n % 10 ^ k) := by ring
      _ = acc * 10 ^ (k + 1) + n := by rw [hmod, pow_succ]

lemma digitsVal_pad (k n : Nat) (h : n < 10 ^ k) : digitsVal (padChars k n) = n := by
  rw [digitsVal, digitsVal_aux k 0 n h, Nat.zero_mul, Nat.zero_add]

lemma allDigits_pad (k : Nat) : ∀ n : Nat, n < 10 ^ k → allDigits (padChars k n) = true := by
  induction k with
  | zero => intro n h; rfl
  | succ k ih =>
    intro n h
    have hd : n / 10 ^ k < 10 := Nat.div_lt_of_lt_mul (by rw [← pow_succ]; exact h)
    rw [padChars_cons]
    simp only [allDigits, List.all_cons, Bool.and_eq_true]
    refine ⟨by simp [digitVal?_digitChar _ hd], ?_⟩
    exact ih _ (Nat.mod_lt _ (by positivity))

lemma fracNs_pad (n : Nat) (h : n < 10 ^ 9) : fracNs (padChars 9 n) = n := by
  rw [fracNs, List.take_of_length_le (by rw [padChars_length]), digitsVal_pad 9 n h,
    padChars_length]
  norm_num

lemma no_z_of_allDigits (cs : List Char) (h : allDigits cs = true) :
    cs.getLast? ≠ some 'Z' := by
  intro hz
  rcases cs with _ | ⟨c, cs'⟩
  · simp at hz
  · have hne : (c :: cs') ≠ [] := by simp
    rw [List.getLast?_eq_getLast_of_ne_nil hne] at hz
    have hmem := List.getLast_mem hne
    rw [Option.some.injEq] at hz
    rw [hz] at hmem
    have hall := (List.all_eq_true.mp h) 'Z' hmem
    simp [digitVal?] at hall


lemma daysToYear_succ (y : Int) : daysToYear (y + 1) = daysToYear y + daysInYear y := by
  simp only [daysToYear, daysInYear, leapsBefore]
  split_ifs <;> omega

lemma daysInYear_bounds (y : Int) : 365 ≤ daysInYear y ∧ daysInYear y ≤ 366 := by
  simp only [daysInYear]
  split_ifs <;> omega

lemma yearScan_spec (fuel : Nat) : ∀ (y r : Int), 0 ≤ r → r < 365 * (fuel : Int) →
    daysToYear (yearScan fuel y r).1 + (yearScan fuel y r).2 = daysToYear y + r ∧
    0 ≤ (yearScan fuel y r).2 ∧
    (yearScan fuel y r).2 < daysInYear (yearScan fuel y r).1 ∧
    y ≤ (yearScan fuel y r).1 := by
  induction fuel with
  | zero => intro y r h0 h1; norm_num at h1; omega
  | succ k ih =>
    intro y r h0 h1
    rw [yearScan]
    split_ifs with hr
    · exact ⟨rfl, h0, hr, le_refl y⟩
    · push_neg at hr
      have hb := daysInYear_bounds y
      have h1' : r - daysInYear y < 365 * (k : Int) := by push_cast at h1 ⊢; omega
      have := ih (y + 1) (r - daysInYear y) (by omega) h1'
      rw [daysToYear_succ] at this
      exact ⟨by omega, this.2.1, this.2.2.1, by omega⟩

lemma daysToMonth_succ (leap : Bool) (m : Int) (h1 : 1 ≤ m) (h2 : m ≤ 12) :
    daysToMonth leap (m + 1) = daysToMonth leap m + monthDays leap m := by
  interval_cases m <;> cases leap <;> decide

lemma monthDays_le (leap : Bool) (m : Int) (h1 : 1 ≤ m) (h2 : m ≤ 12) :
    monthDays leap m ≤ 31 := by
  interval_cases m <;> cases leap <;> decide

lemma monthDays_pos (leap : Bool) (m : Int) (h1 : 1 ≤ m) (h2 : m ≤ 12) :
    0 < monthDays leap m := by
  interval_cases m <;> cases leap <;> decide

lemma monthScan_spec (fuel : Nat) : ∀ (leap : Bool) (m r : Int), 1 ≤ m →
    m + (fuel : Int) = 13 → 0 ≤ r →
    r + daysToMonth leap m < daysToMonth leap 13 →
    daysToMonth leap (monthScan fuel leap m r).1 + (monthScan fuel leap m r).2 =
      daysToMonth leap m + r ∧
    0 ≤ (monthScan fuel leap m r).2 ∧
    (monthScan fuel leap m r).2 < monthDays leap (monthScan fuel leap m r).1 ∧
    1 ≤ (monthScan fuel leap m r).1 ∧ (monthScan fuel leap m r).1 ≤ 12 := by
  induction fuel with
  | zero =>
    intro leap m r h1 hf h0 hlt
    norm_num at hf
    subst hf
    omega
  | succ k ih =>
    intro leap m r h1 hf h0 hlt
    have hm12 : m ≤ 12 := by push_cast at hf; omega
    rw [monthScan]
    split_ifs with hr
    · exact ⟨rfl, h0, hr, h1, hm12⟩
    · push_neg at hr
      have hstep := daysToMonth_succ leap m h1 hm12
      have := ih leap (m + 1) (r - monthDays leap m) (by omega)
        (by push_cast at hf ⊢; omega) (by omega) (by omega)
      exact ⟨by omega, this.2.1, this.2.2.1, by omega, this.2.2.2.2⟩

lemma daysToYear_1601 : daysToYear 1601 = -134774 := by decide

lemma daysToMonth_one (leap : Bool) : daysToMonth leap 1 = 0 := by cases leap <;> decide

lemma daysToMonth_13 (y : Int) : daysToMonth (isLeap y) 13 = daysInYear y := by
  have h365 : daysToMonth false 13 = 365 := by decide
  have h366 : daysToMonth true 13 = 366 := by decide
  rcases h : isLeap y with _ | _
  · rw [h365, daysInYear, if_neg (by simpa [isLeap] using h)]
  · rw [h366, daysInYear, if_pos (by simpa [isLeap] using h)]

lemma civilFromDays_spec (z : Int) (h0 : -134774 ≤ z) (h1 : z < 303226) :
    daysFromCivil (civilFromDays z).1 (civilFromDays z).2.1 (civilFromDays z).2.2 = z ∧
    1 ≤ (civilFromDays z).2.1 ∧ (civilFromDays z).2.1 ≤ 12 ∧
    1 ≤ (civilFromDays z).2.2 ∧ (civilFromDays z).2.2 ≤ 31 ∧
    1601 ≤ (civilFromDays z).1 := by
  have hy := yearScan_spec 1200 1601 (z - daysToYear 1601)
    (by rw [daysToYear_1601]; omega) (by rw [daysToYear_1601]; push_cast; omega)
  rcases hp : yearScan 1200 1601 (z - daysToYear 1601) with ⟨y, r⟩
  rw [hp] at hy
  simp only at hy
  have hm := monthScan_spec 12 (isLeap y) 1 r (by norm_num) (by norm_num)
    hy.2.1 (by rw [daysToMonth_one, daysToMonth_13]; omega)
  rcases hq : monthScan 12 (isLeap y) 1 r with ⟨m, r2⟩
  rw [hq] at hm
  simp only at hm
  rw [daysToMonth_one] at hm
  have hmd := monthDays_le (isLeap y) m hm.2.2.2.1 hm.2.2.2.2
  have hcv : civilFromDays z = (y, m, r2 + 1) := by
    simp [civilFromDays, hp, hq]
  rw [hcv]
  dsimp only
  refine ⟨?_, by omega, by omega, by omega, by omega, by omega⟩
  rw [daysFromCivil]
  omega


lemma taiToUtc_ok_le (n u : Int) (h : taiToUtc n = .ok u) : u ≤ n := by
  simp only [taiToUtc, nsPerSec] at h
  rw [offsetForTai_eq] at h
  split_ifs at h <;> simp only [Except.ok.injEq, reduceCtorEq] at h <;> omega

lemma decompose_spec (t : Int) (h0 : -283996800000000000 ≤ t) (h1 : t < 2 ^ 63) :
    ∃ y m d hh mi ss f : Int,
      decompose t = (y, m, d, hh, mi, ss, f) ∧
      (daysFromCivil y m d * 86400 + hh * 3600 + mi * 60 + ss) * nsPerSec + f = t ∧
      1 ≤ m ∧ m ≤ 12 ∧ 1 ≤ d ∧ d ≤ 31 ∧ 0 ≤ hh ∧ hh < 24 ∧ 0 ≤ mi ∧ mi < 60 ∧
      0 ≤ ss ∧ ss < 60 ∧ 0 ≤ f ∧ f < 1000000000 ∧ 1601 ≤ y := by
  have hdayslo : -134774 ≤ t / nsPerDay := by
    simp only [nsPerDay, nsPerSec]
    omega
  have hdayshi : t / nsPerDay < 303226 := by
    simp only [nsPerDay, nsPerSec]
    omega
  have hciv := civilFromDays_spec (t / nsPerDay) hdayslo hdayshi
  rcases hc : civilFromDays (t / nsPerDay) with ⟨y, m, d⟩
  rw [hc] at hciv
  simp only at hciv
  refine ⟨y, m, d, t % nsPerDay / nsPerSec / 3600, t % nsPerDay / nsPerSec % 3600 / 60,
    t % nsPerDay / nsPerSec % 60, t % nsPerDay % nsPerSec, ?_, ?_, ?_⟩
  · simp only [decompose, hc]
  · rw [hciv.1]
    simp only [nsPerDay, nsPerSec] at *
    omega
  · simp only [nsPerDay, nsPerSec] at *
    refine ⟨hciv.2.1, hciv.2.2.1, hciv.2.2.2.1, hciv.2.2.2.2.1, ?_⟩
    constructor
    · omega
    constructor
    · omega
    refine ⟨by omega, by omega, by omega, by omega, by omega, by omega, hciv.2.2.2.2.2⟩


lemma skipSep_hit (sep : Char) (l : List Char) : skipSep sep (sep :: l) = l := by
  simp [skipSep]

lemma parseFields_iso (Y Mo D H Mi S F : Nat)
    (hY : Y < 10 ^ 4) (hMo : Mo < 10 ^ 2) (hD : D < 10 ^ 2) (hH : H < 10 ^ 2)
    (hMi : Mi < 10 ^ 2) (hS : S < 10 ^ 2) (hF : F < 10 ^ 9) :
    parseFields (padChars 4 Y ++ '-' :: (padChars 2 Mo ++ '-' :: (padChars 2 D ++
      'T' :: (padChars 2 H ++ ':' :: (padChars 2 Mi ++ ':' :: (padChars 2 S ++
      '.' :: padChars 9 F)))))) = some (Y, Mo, D, H, Mi, S, F) := by
  rw [parseFields, readFixed_pad 4 Y _ hY]
  dsimp only
  rw [skipSep_hit, readFixed_pad 2 Mo _ hMo]
  dsimp only
  rw [skipSep_hit, readFixed_pad 2 D _ hD]
  dsimp only
  rw [if_pos rfl, readFixed_pad 2 H _ hH]
  dsimp only
  rw [skipSep_hit, readFixed_pad 2 Mi _ hMi]
  dsimp only
  rw [skipSep_hit, readFixed_pad 2 S _ hS]
  dsimp only
  simp [allDigits_pad 9 F hF, fracNs_pad F hF]


lemma isoChars_concat (y m d hh mi ss f : Int) :
    isoChars y m d hh mi ss f true = isoChars y m d hh mi ss f false ++ ['Z'] := by
  simp [isoChars, List.append_assoc]

lemma parseFields_isoChars (y m d hh mi ss f : Int)
    (hy0 : 0 ≤ y) (hy : y < 10000) (hm : 0 ≤ m) (hm2 : m < 100)
    (hd : 0 ≤ d) (hd2 : d < 100) (hh0 : 0 ≤ hh) (hh2 : hh < 100)
    (hmi : 0 ≤ mi) (hmi2 : mi < 100) (hs : 0 ≤ ss) (hs2 : ss < 100)
    (hf : 0 ≤ f) (hf2 : f < 1000000000) :
    parseFields (isoChars y m d hh mi ss f false) =
      some (y.toNat, m.toNat, d.toNat, hh.toNat, mi.toNat, ss.toNat, f.toNat) := by
  have h := parseFields_iso y.toNat m.toNat d.toNat hh.toNat mi.toNat ss.toNat f.toNat
    (by omega) (by omega) (by omega) (by omega) (by omega) (by omega) (by omega)
  rw [show isoChars y m d hh mi ss f false =
    (padChars 4 y.toNat ++ '-' :: (padChars 2 m.toNat ++ '-' :: (padChars 2 d.toNat ++
      'T' :: (padChars 2 hh.toNat ++ ':' :: (padChars 2 mi.toNat ++ ':' :: (padChars 2 ss.toNat ++
      '.' :: padChars 9 f.toNat)))))) from by simp [isoChars]]
  exact h


lemma padChars_ne_nil (n : Nat) : padChars 9 n ≠ [] := by
  intro hc
  have hl := padChars_length 9 n
  rw [hc] at hl
  simp at hl

lemma isoChars_split_false (y m d hh mi ss f : Int) :
    isoChars y m d hh mi ss f false =
      (padChars 4 y.toNat ++ '-' :: padChars 2 m.toNat ++ '-' :: padChars 2 d.toNat ++
        'T' :: padChars 2 hh.toNat ++ ':' :: padChars 2 mi.toNat ++
        ':' :: padChars 2 ss.toNat ++ ['.']) ++ padChars 9 f.toNat := by
  simp [isoChars, List.append_assoc]

lemma isoChars_getLast_false (y m d hh mi ss f : Int) (hf : f.toNat < 10 ^ 9) :
    (isoChars y m d hh mi ss f false).getLast? ≠ some 'Z' := by
  intro hz
  have hne := padChars_ne_nil f.toNat
  have hnz := no_z_of_allDigits (padChars 9 f.toNat) (allDigits_pad 9 _ hf)
  rw [isoChars_split_false, List.getLast?_append] at hz
  rcases hx : (padChars 9 f.toNat).getLast? with _ | c
  · rw [List.getLast?_eq_getLast_of_ne_nil hne] at hx
    exact absurd hx (by simp)
  · rw [hx] at hz
    simp only [Option.or] at hz
    rw [hz] at hx
    exact hnz hx


lemma decompose_frac (t : Int) :
    (decompose t).2.2.2.2.2.2 = t % nsPerDay % nsPerSec := by
  rcases hc : civilFromDays (t / nsPerDay) with ⟨a, b, c⟩
  simp [decompose, hc]

lemma toString_shape (dt : DateTime) (scale' : Timescale) (str' : String)
    (hstr : dt.toString scale' = .ok str') :
    ((str'.data.getLast? = some 'Z') ↔ scale' = .UTC) ∧
    ∃ pre f9, str'.data = pre ++ '.' :: (f9 ++ (if scale' = .UTC then ['Z'] else [])) ∧
      f9.length = 9 ∧ allDigits f9 = true := by
  rw [DateTime.toString] at hstr
  split_ifs at hstr with hv
  cases hsf : scaleFromTai dt._nsecs scale' with
  | error e => rw [hsf] at hstr; simp [Except.map] at hstr
  | ok t =>
      rw [hsf] at hstr
      simp only [Except.map, Except.ok.injEq] at hstr
      rcases hd : decompose t with ⟨y, m, d, hh, mi, ss, f⟩
      simp only [hd] at hstr
      have hfv : f = t % nsPerDay % nsPerSec := by
        have hx := decompose_frac t
        rw [hd] at hx
        simpa using hx
      have hf9 : f.toNat < 10 ^ 9 := by
        rw [hfv]
        simp only [nsPerDay, nsPerSec]
        omega
      have hdata : str'.data = isoChars y m d hh mi ss f (decide (scale' = .UTC)) := by
        rw [← hstr]
      by_cases hsc : scale' = .UTC
      · have hdec : decide (scale' = .UTC) = true := by simp [hsc]
        rw [hdec] at hdata
        constructor
        · rw [hdata, isoChars_concat, List.getLast?_concat]
          simp [hsc]
        · refine ⟨padChars 4 y.toNat ++ '-' :: padChars 2 m.toNat ++
            '-' :: padChars 2 d.toNat ++ 'T' :: padChars 2 hh.toNat ++
            ':' :: padChars 2 mi.toNat ++ ':' :: padChars 2 ss.toNat,
            padChars 9 f.toNat, ?_, padChars_length 9 _, allDigits_pad 9 _ hf9⟩
          rw [hdata, if_pos hsc, isoChars_concat]
          simp [isoChars, List.append_assoc]
      · have hdec : decide (scale' = .UTC) = false := by simp [hsc]
        rw [hdec] at hdata
        constructor
        · rw [hdata]
          exact iff_of_false (isoChars_getLast_false y m d hh mi ss f hf9) hsc
        · refine ⟨padChars 4 y.toNat ++ '-' :: padChars 2 m.toNat ++
            '-' :: padChars 2 d.toNat ++ 'T' :: padChars 2 hh.toNat ++
            ':' :: padChars 2 mi.toNat ++ ':' :: padChars 2 ss.toNat,
            padChars 9 f.toNat, ?_, padChars_length 9 _, allDigits_pad 9 _ hf9⟩
          rw [hdata, if_neg hsc]
          simp [isoChars, List.append_assoc]

set_option maxRecDepth 10000 in
/-- C6 counterexample: the format/parse round trip fails at two kinds of
valid post-horizon instants.  For a TAI instant inside the 2016-12-31
leap-second insertion, the emitted UTC text of TAI 1483228836000000000 is
"2017-01-01T00:00:00.000000000Z", but parsing that text back with scale
UTC lands on TAI 1483228837000000000, one second later.  And for the valid
int64 TAI instant 9214646437000000000 (2262-01-01 UTC) the emitted text
carries year 2262, which the parser rejects outright, so the round trip
returns an error instead of the instant. -/
theorem iso_utc_roundtrip_counterexample :
    DateTime.toString ⟨1483228836000000000⟩ .UTC =
      .ok "2017-01-01T00:00:00.000000000Z" ∧
    parseIso "2017-01-01T00:00:00.000000000Z" .UTC = .ok ⟨1483228837000000000⟩ ∧
    (⟨1483228837000000000⟩ : DateTime) ≠ ⟨1483228836000000000⟩ ∧
    DateTime.toString ⟨9214646437000000000⟩ .UTC =
      .ok "2262-01-01T00:00:00.000000000Z" ∧
    parseIso "2262-01-01T00:00:00.000000000Z" .UTC = .error .domainError := by
  refine ⟨by decide, by decide, by decide, by decide, by decide⟩

set_option maxRecDepth 10000 in
/-- C6 (amended): the emitted ISO8601 text is always — for every DateTime,
whatever its instant, and every scale whose text form succeeds —
`yyyy-mm-ddThh:mm:ss.fffffffff` with exactly 9 fractional digits always
present and a trailing `Z` iff the requested scale is UTC; and
`parse(format(x, UTC), UTC) = x` for every valid int64 instant after the
UTC horizon whose UTC calendar year is at most 2261 (past it the parser
rejects the emitted year) and which does not lie inside a leap-second
transition window; in particular parsing "2000-01-01T00:00:00Z" with scale
UTC and re-emitting UTC text yields "2000-01-01T00:00:00.000000000Z". -/
theorem iso_format_parse_roundtrip (dt : DateTime) (u : Int)
    (hlo : -(2 ^ 63) < dt._nsecs) (hhi : dt._nsecs < 2 ^ 63)
    (htu : taiToUtc dt._nsecs = .ok u)
    (hw : inLeapWindow dt._nsecs = false)
    (hy1 : 1902 ≤ (decompose u).1) (hy2 : (decompose u).1 ≤ 2261) :
    ((dt.toString .UTC).bind (fun str => parseIso str .UTC) = .ok dt) ∧
    (∀ (x : DateTime) (scale' : Timescale) (str' : String), x.toString scale' = .ok str' →
      ((str'.data.getLast? = some 'Z') ↔ scale' = .UTC) ∧
      ∃ pre f9, str'.data = pre ++ '.' :: (f9 ++ (if scale' = .UTC then ['Z'] else [])) ∧
        f9.length = 9 ∧ allDigits f9 = true) ∧
    ((parseIso "2000-01-01T00:00:00Z" .UTC).bind (fun x => x.toString .UTC) =
      .ok "2000-01-01T00:00:00.000000000Z") := by
  have hvne : dt._nsecs ≠ invalid_nsecs := by rw [invalid_nsecs_eq]; omega
  refine ⟨?_, fun x scale' str' hstr => toString_shape x scale' str' hstr, by decide⟩
  have hul : -283996800000000000 ≤ u := taiToUtc_ok_lower _ _ htu
  have hule : u ≤ dt._nsecs := taiToUtc_ok_le _ _ htu
  obtain ⟨y, m, d, hh, mi, ss, f, hdec, hsum, hb⟩ := decompose_spec u hul (by omega)
  rw [hdec] at hy1 hy2
  simp only at hy1 hy2
  have hts : dt.toString .UTC = .ok ⟨isoChars y m d hh mi ss f true⟩ := by
    simp [DateTime.toString, hvne, scaleFromTai, htu, Except.map, hdec]
  rw [hts]
  simp only [Except.bind]
  rw [parseIso]
  simp only [String.data]
  rw [isoChars_concat]
  simp only [if_pos rfl, List.getLast?_concat, List.dropLast_concat, reduceIte]
  rw [parseFields_isoChars y m d hh mi ss f (by omega) (by omega) (by omega) (by omega)
    (by omega) (by omega) (by omega) (by omega) (by omega) (by omega) (by omega) (by omega)
    (by omega) (by omega)]
  dsimp only
  rw [if_neg (by omega)]
  have hyc : ((y.toNat : Int)) = y := Int.toNat_of_nonneg (by omega)
  have hmc : ((m.toNat : Int)) = m := Int.toNat_of_nonneg (by omega)
  have hdc : ((d.toNat : Int)) = d := Int.toNat_of_nonneg (by omega)
  have hhc : ((hh.toNat : Int)) = hh := Int.toNat_of_nonneg (by omega)
  have hmic : ((mi.toNat : Int)) = mi := Int.toNat_of_nonneg (by omega)
  have hsc : ((ss.toNat : Int)) = ss := Int.toNat_of_nonneg (by omega)
  have hfc : ((f.toNat : Int)) = f := Int.toNat_of_nonneg (by omega)
  rw [hyc, hmc, hdc, hhc, hmic, hsc, hfc, hsum]
  simp only [scaleToTai]
  rw [utcToTai_of_taiToUtc dt._nsecs u htu hw]
  rfl

set_option maxRecDepth 10000 in
/-- Witness for C6 at TAI instant 946684810000000000 ns (2000-01-01 UTC,
offset 10 s in the modelled table). -/
theorem iso_format_parse_roundtrip_witness :
    (DateTime.toString ⟨946684810000000000⟩ .UTC).bind (fun str => parseIso str .UTC) =
      .ok ⟨946684810000000000⟩ :=
  (iso_format_parse_roundtrip ⟨946684810000000000⟩ 946684800000000000 (by norm_num)
    (by norm_num) (by decide) (by decide) (by decide) (by decide)).1

end DafBase
